import Mathlib

/-!
Shallow embedding of the issue-tracker backend
(`src/fastapi-backend/app/schemas.py` and
`src/fastapi-backend/app/routes/issues.py`).

Persisted records are dictionaries of strings in the source, so
`IssueRecord` keeps `status` and `priority` as `String` fields; the
closed enumerations `IssueStatus` and `IssuePriority` model the
pydantic `str`-enums and `value` gives their wire strings.

The storage accessor `app/storage.py` is imported by the routes but is
not part of the provided sources, so `load_data` and `save_data` are
modelled from the spec (see their doc comments).  The persisted store
is threaded explicitly: every route handler takes the current store
and returns its response together with the resulting store.
-/

namespace IssueTracker

/-- `IssueStatus` from `schemas.py`: a closed `str` enumeration. -/
inductive IssueStatus where
  | open_
  | in_progress
  | closed
deriving DecidableEq, Repr

/-- The wire string of each `IssueStatus` member, exactly as written in
`schemas.py` (note `in_progress` maps to `"in progress"` with a space). -/
def IssueStatus.value : IssueStatus → String
  | .open_ => "open"
  | .in_progress => "in progress"
  | .closed => "closed"

/-- `IssuePriority` from `schemas.py`: a closed `str` enumeration. -/
inductive IssuePriority where
  | low
  | medium
  | high
deriving DecidableEq, Repr

/-- The wire string of each `IssuePriority` member. -/
def IssuePriority.value : IssuePriority → String
  | .low => "low"
  | .medium => "medium"
  | .high => "high"

/-- A persisted issue record: in the source these are plain dicts whose
values are strings (the `str`-enum members serialize to their values). -/
structure IssueRecord where
  id : String
  title : String
  description : String
  status : String
  priority : String
deriving DecidableEq, Repr

/-- A validated `IssueCreate` payload (`schemas.py`): `title` and
`description` passed their length constraints and `priority` is an enum
member (the field default `medium` has already been applied). -/
structure IssueCreate where
  title : String
  description : String
  priority : IssuePriority
deriving DecidableEq, Repr

/-- A validated `IssueUpdate` payload (`schemas.py`): every field is
optional and `none` means the field was absent from the request. -/
structure IssueUpdate where
  title : Option String := none
  description : Option String := none
  priority : Option IssuePriority := none
  status : Option IssueStatus := none
deriving DecidableEq, Repr

/-- A raw create request body before pydantic validation.  `priority`
is `none` when the client omitted it; `status` models a client-supplied
`status` key, which `IssueCreate` does not declare and pydantic
therefore ignores. -/
structure IssueCreateRaw where
  title : String
  description : String
  priority : Option String := none
  status : Option String := none
deriving DecidableEq, Repr

/-- A raw update request body before pydantic validation. -/
structure IssueUpdateRaw where
  title : Option String := none
  description : Option String := none
  priority : Option String := none
  status : Option String := none
deriving DecidableEq, Repr

/-- Coercion of a raw string to an `IssuePriority` member, as pydantic
does for a `str`-enum field: exactly the listed values are accepted. -/
def parsePriority : String → Option IssuePriority
  | "low" => some .low
  | "medium" => some .medium
  | "high" => some .high
  | _ => none

/-- Coercion of a raw string to an `IssueStatus` member. -/
def parseStatus : String → Option IssueStatus
  | "open" => some .open_
  | "in progress" => some .in_progress
  | "closed" => some .closed
  | _ => none

/-- The `title` constraint of `schemas.py`: `min_length=3, max_length=255`. -/
def titleOk (t : String) : Prop := 3 ≤ t.length ∧ t.length ≤ 255

instance (t : String) : Decidable (titleOk t) :=
  inferInstanceAs (Decidable (3 ≤ t.length ∧ t.length ≤ 255))

/-- The `description` constraint of `schemas.py`:
`min_length=5, max_length=1000`. -/
def descriptionOk (d : String) : Prop := 5 ≤ d.length ∧ d.length ≤ 1000

instance (d : String) : Decidable (descriptionOk d) :=
  inferInstanceAs (Decidable (5 ≤ d.length ∧ d.length ≤ 1000))

/-- Pydantic validation of an `IssueCreate` body: both length
constraints must hold, `priority` must coerce when supplied and
defaults to `medium` when absent, and the undeclared `status` key is
ignored. -/
def validate_create (raw : IssueCreateRaw) : Option IssueCreate :=
  if titleOk raw.title ∧ descriptionOk raw.description then
    match raw.priority with
    | none => some ⟨raw.title, raw.description, .medium⟩
    | some s => (parsePriority s).map (fun p => ⟨raw.title, raw.description, p⟩)
  else none

/-- Validate one optional string field of an `IssueUpdate` body:
absent fields are accepted as absent, present fields must satisfy the
constraint. -/
def validateOptText (ok : String → Prop) [DecidablePred ok] :
    Option String → Option (Option String)
  | none => some none
  | some s => if ok s then some (some s) else none

/-- Coerce one optional enum field of an `IssueUpdate` body. -/
def parseOptEnum {α : Type} (parse : String → Option α) :
    Option String → Option (Option α)
  | none => some none
  | some s => (parse s).map some

/-- Pydantic validation of an `IssueUpdate` body: each of the four
fields is independently optional; a supplied field must satisfy the
same constraint as at creation. -/
def validate_update (raw : IssueUpdateRaw) : Option IssueUpdate := do
  let t ← validateOptText titleOk raw.title
  let d ← validateOptText descriptionOk raw.description
  let p ← parseOptEnum parsePriority raw.priority
  let s ← parseOptEnum parseStatus raw.status
  some ⟨t, d, p, s⟩

/-- Modelled from the spec: `app/storage.py` is not among the provided
sources.  Section 4.1 of the spec: `load()` reads the full persisted
collection as an ordered sequence.  With the store threaded explicitly,
loading returns the current collection. -/
def load_data (store : List IssueRecord) : List IssueRecord := store

/-- Modelled from the spec: `app/storage.py` is not among the provided
sources.  Section 4.1 of the spec: `save(records)` replaces the entire
persisted collection with the given ordered sequence. -/
def save_data (records : List IssueRecord) : List IssueRecord := records

/-- The error kinds a route handler can signal: a pydantic validation
failure (HTTP 422) or the explicit `HTTPException` 404. -/
inductive ApiError where
  | validationError
  | notFound
deriving DecidableEq, Repr

/-- `GET /api/v1/issues/` (`get_issues` in `issues.py`): load and
return all issues; the handler never calls `save_data`, so the
resulting store is the incoming one. -/
def get_issues (store : List IssueRecord) :
    List IssueRecord × List IssueRecord :=
  (load_data store, store)

/-- The dict literal built by `create_issue`: server-generated `id`,
`status` forced to `IssueStatus.open`, `priority` from the validated
payload. -/
def mk_new_issue (freshId : String) (issue : IssueCreate) : IssueRecord :=
  { id := freshId
    title := issue.title
    description := issue.description
    status := IssueStatus.open_.value
    priority := issue.priority.value }

/-- `POST /api/v1/issues/` handler body (`create_issue` in `issues.py`)
after validation: build the new record, load, append, save, return the
record.  `uuid4()` is modelled by the `freshId` argument. -/
def create_issue (freshId : String) (issue : IssueCreate)
    (store : List IssueRecord) : IssueRecord × List IssueRecord :=
  let new_issue := mk_new_issue freshId issue
  let issues := load_data store
  (new_issue, save_data (issues ++ [new_issue]))

/-- The `for issue in issues` scan of `get_issue`: return the first
record whose `id` equals `issue_id` under exact string equality. -/
def findIssue (issue_id : String) : List IssueRecord → Option IssueRecord
  | [] => none
  | issue :: rest =>
    if issue.id = issue_id then some issue else findIssue issue_id rest

/-- `GET /api/v1/issues/(issue_id)` (`get_issue` in `issues.py`): load,
linear-scan for the id, return the match or raise 404.  No `save_data`
call, so the store is returned unchanged in both outcomes. -/
def get_issue (issue_id : String) (store : List IssueRecord) :
    Except ApiError IssueRecord × List IssueRecord :=
  match findIssue issue_id (load_data store) with
  | some issue => (.ok issue, store)
  | none => (.error .notFound, store)

/-- The in-place field mutations of `update_issue`: each of the four
`if ... is not None` assignments, in source order; enum fields are
stored as their `.value` strings. -/
def applyUpdate (u : IssueUpdate) (issue : IssueRecord) : IssueRecord :=
  let issue :=
    match u.title with
    | some t => { issue with title := t }
    | none => issue
  let issue :=
    match u.description with
    | some d => { issue with description := d }
    | none => issue
  let issue :=
    match u.priority with
    | some p => { issue with priority := p.value }
    | none => issue
  match u.status with
  | some s => { issue with status := s.value }
  | none => issue

/-- The `for issue in issues` scan of `update_issue`: on the first
match, mutate that record in place and stop; `none` when the scan
completes without a match. -/
def updateLoop (issue_id : String) (u : IssueUpdate) :
    List IssueRecord → Option (IssueRecord × List IssueRecord)
  | [] => none
  | issue :: rest =>
    if issue.id = issue_id then
      let updated := applyUpdate u issue
      some (updated, updated :: rest)
    else
      match updateLoop issue_id u rest with
      | some (r, rest2) => some (r, issue :: rest2)
      | none => none

/-- `PUT /api/v1/issues/(issue_id)` handler body (`update_issue` in
`issues.py`) after validation: load, scan, mutate the matched record,
save, return it; raise 404 (without saving) when no record matches. -/
def update_issue (issue_id : String) (u : IssueUpdate)
    (store : List IssueRecord) :
    Except ApiError IssueRecord × List IssueRecord :=
  match updateLoop issue_id u (load_data store) with
  | some (r, issues) => (.ok r, save_data issues)
  | none => (.error .notFound, store)

/-- The `for i, issue in enumerate(issues)` scan of `delete_issue`:
pop the first matched element in place; `none` when no match. -/
def deleteLoop (issue_id : String) :
    List IssueRecord → Option (List IssueRecord)
  | [] => none
  | issue :: rest =>
    if issue.id = issue_id then some rest
    else (deleteLoop issue_id rest).map (fun rest2 => issue :: rest2)

/-- `DELETE /api/v1/issues/(issue_id)` (`delete_issue` in `issues.py`):
load, scan, pop the matched element, save, return 204; raise 404
(without saving) when no record matches. -/
def delete_issue (issue_id : String) (store : List IssueRecord) :
    Except ApiError Unit × List IssueRecord :=
  match deleteLoop issue_id (load_data store) with
  | some issues => (.ok (), save_data issues)
  | none => (.error .notFound, store)

/-- The full `POST` endpoint: pydantic validation of the raw body (a
failure answers 422 before the handler runs, so nothing is persisted),
then the `create_issue` handler. -/
def post_issue (freshId : String) (raw : IssueCreateRaw)
    (store : List IssueRecord) :
    Except ApiError IssueRecord × List IssueRecord :=
  match validate_create raw with
  | none => (.error .validationError, store)
  | some p =>
    let res := create_issue freshId p store
    (.ok res.1, res.2)

/-- The full `PUT` endpoint: pydantic validation of the raw body (a
failure answers 422 before the handler runs), then the `update_issue`
handler. -/
def put_issue (issue_id : String) (raw : IssueUpdateRaw)
    (store : List IssueRecord) :
    Except ApiError IssueRecord × List IssueRecord :=
  match validate_update raw with
  | none => (.error .validationError, store)
  | some u => update_issue issue_id u store

/-- A store-mutating operation, for reasoning about sequences of
creations and deletions. -/
inductive StoreOp where
  | createOp (freshId : String) (payload : IssueCreate)
  | deleteOp (issue_id : String)

/-- Run one operation against the store, keeping the resulting store. -/
def runOp (store : List IssueRecord) : StoreOp → List IssueRecord
  | .createOp fid p => (create_issue fid p store).2
  | .deleteOp i => (delete_issue i store).2

/-- Run a sequence of operations left to right from a given store. -/
def runOps (store : List IssueRecord) : List StoreOp → List IssueRecord
  | [] => store
  | op :: ops => runOps (runOp store op) ops

/-- The records produced by the create operations of a sequence, in
creation order. -/
def createdRecords : List StoreOp → List IssueRecord
  | [] => []
  | .createOp fid p :: ops => mk_new_issue fid p :: createdRecords ops
  | .deleteOp _ :: ops => createdRecords ops

/-- A record is well formed when its `status` and `priority` strings
are members of their enumerations. -/
def wfRecord (r : IssueRecord) : Prop :=
  (r.status = "open" ∨ r.status = "in progress" ∨ r.status = "closed") ∧
  (r.priority = "low" ∨ r.priority = "medium" ∨ r.priority = "high")

/-- The ids of a store, in order. -/
def ids (store : List IssueRecord) : List String :=
  store.map IssueRecord.id

/-! ### Helper lemmas about the scanning loops -/

theorem findIssue_eq_none_iff (issue_id : String) (l : List IssueRecord) :
    findIssue issue_id l = none ↔ ∀ r ∈ l, r.id ≠ issue_id := by
  induction l with
  | nil => simp [findIssue]
  | cons a rest ih =>
    by_cases h : a.id = issue_id
    · simp [findIssue, h]
    · simp [findIssue, h, ih]

theorem findIssue_mem (issue_id : String) (l : List IssueRecord)
    (h : ∃ r ∈ l, r.id = issue_id) :
    ∃ r, findIssue issue_id l = some r ∧ r.id = issue_id ∧ r ∈ l := by
  induction l with
  | nil => simp at h
  | cons a rest ih =>
    by_cases ha : a.id = issue_id
    · exact ⟨a, by simp [findIssue, ha], ha, by simp⟩
    · obtain ⟨r, hr, hid⟩ := h
      rcases List.mem_cons.mp hr with rfl | hmem
      · exact absurd hid ha
      · obtain ⟨r2, h1, h2, h3⟩ := ih ⟨r, hmem, hid⟩
        exact ⟨r2, by simp [findIssue, ha, h1], h2, by simp [h3]⟩

theorem findIssue_first (issue_id : String) (pre suf : List IssueRecord)
    (r : IssueRecord) (hpre : ∀ x ∈ pre, x.id ≠ issue_id)
    (hr : r.id = issue_id) :
    findIssue issue_id (pre ++ r :: suf) = some r := by
  induction pre with
  | nil => simp [findIssue, hr]
  | cons a rest ih =>
    have ha : a.id ≠ issue_id := hpre a (by simp)
    simp only [List.cons_append, findIssue, if_neg ha]
    exact ih (fun x hx => hpre x (by simp [hx]))

theorem applyUpdate_fields (u : IssueUpdate) (r : IssueRecord) :
    (applyUpdate u r).id = r.id ∧
    (applyUpdate u r).title = u.title.getD r.title ∧
    (applyUpdate u r).description = u.description.getD r.description ∧
    (applyUpdate u r).priority
      = (u.priority.map IssuePriority.value).getD r.priority ∧
    (applyUpdate u r).status
      = (u.status.map IssueStatus.value).getD r.status := by
  rcases u with ⟨t, d, p, s⟩
  cases t <;> cases d <;> cases p <;> cases s <;> exact ⟨rfl, rfl, rfl, rfl, rfl⟩

theorem updateLoop_eq_none (issue_id : String) (u : IssueUpdate)
    (l : List IssueRecord) (h : ∀ r ∈ l, r.id ≠ issue_id) :
    updateLoop issue_id u l = none := by
  induction l with
  | nil => rfl
  | cons a rest ih =>
    have ha := h a (by simp)
    simp only [updateLoop, if_neg ha, ih (fun x hx => h x (by simp [hx]))]

theorem updateLoop_first (issue_id : String) (u : IssueUpdate)
    (pre suf : List IssueRecord) (r : IssueRecord)
    (hpre : ∀ x ∈ pre, x.id ≠ issue_id) (hr : r.id = issue_id) :
    updateLoop issue_id u (pre ++ r :: suf)
      = some (applyUpdate u r, pre ++ applyUpdate u r :: suf) := by
  induction pre with
  | nil => simp [updateLoop, hr]
  | cons a rest ih =>
    have ha : a.id ≠ issue_id := hpre a (by simp)
    simp only [List.cons_append, updateLoop, if_neg ha, List.append_eq,
      ih (fun x hx => hpre x (by simp [hx]))]

theorem updateLoop_map_id (issue_id : String) (u : IssueUpdate) :
    ∀ (l l' : List IssueRecord) (r : IssueRecord),
      updateLoop issue_id u l = some (r, l') →
      l'.map IssueRecord.id = l.map IssueRecord.id := by
  intro l
  induction l with
  | nil => intro l' r h; cases h
  | cons a rest ih =>
    intro l' r h
    by_cases ha : a.id = issue_id
    · simp only [updateLoop, if_pos ha, Option.some.injEq, Prod.mk.injEq] at h
      obtain ⟨h1, h2⟩ := h
      subst h2
      simp [(applyUpdate_fields u a).1]
    · simp only [updateLoop, if_neg ha] at h
      cases hrec : updateLoop issue_id u rest with
      | none => rw [hrec] at h; cases h
      | some pr =>
        rw [hrec] at h
        obtain ⟨r2, rest2⟩ := pr
        simp only [Option.some.injEq, Prod.mk.injEq] at h
        obtain ⟨h1, h2⟩ := h
        subst h2
        simp [ih rest2 r2 hrec]

theorem updateLoop_result (issue_id : String) (u : IssueUpdate) :
    ∀ (l l' : List IssueRecord) (r : IssueRecord),
      updateLoop issue_id u l = some (r, l') →
      ∀ y ∈ l', y ∈ l ∨ ∃ x ∈ l, y = applyUpdate u x := by
  intro l
  induction l with
  | nil => intro l' r h; cases h
  | cons a rest ih =>
    intro l' r h y hy
    by_cases ha : a.id = issue_id
    · simp only [updateLoop, if_pos ha, Option.some.injEq, Prod.mk.injEq] at h
      obtain ⟨h1, h2⟩ := h
      subst h2
      rcases List.mem_cons.mp hy with rfl | hmem
      · exact Or.inr ⟨a, by simp, rfl⟩
      · exact Or.inl (by simp [hmem])
    · simp only [updateLoop, if_neg ha] at h
      cases hrec : updateLoop issue_id u rest with
      | none => rw [hrec] at h; cases h
      | some pr =>
        rw [hrec] at h
        obtain ⟨r2, rest2⟩ := pr
        simp only [Option.some.injEq, Prod.mk.injEq] at h
        obtain ⟨h1, h2⟩ := h
        subst h2
        rcases List.mem_cons.mp hy with rfl | hmem
        · exact Or.inl (by simp)
        · rcases ih rest2 r2 hrec y hmem with hin | ⟨x, hx, hxy⟩
          · exact Or.inl (by simp [hin])
          · exact Or.inr ⟨x, by simp [hx], hxy⟩

theorem deleteLoop_eq_none (issue_id : String) (l : List IssueRecord)
    (h : ∀ r ∈ l, r.id ≠ issue_id) : deleteLoop issue_id l = none := by
  induction l with
  | nil => rfl
  | cons a rest ih =>
    have ha := h a (by simp)
    simp [deleteLoop, ha, ih (fun x hx => h x (by simp [hx]))]

theorem deleteLoop_first (issue_id : String) (pre suf : List IssueRecord)
    (r : IssueRecord) (hpre : ∀ x ∈ pre, x.id ≠ issue_id)
    (hr : r.id = issue_id) :
    deleteLoop issue_id (pre ++ r :: suf) = some (pre ++ suf) := by
  induction pre with
  | nil => simp [deleteLoop, hr]
  | cons a rest ih =>
    have ha : a.id ≠ issue_id := hpre a (by simp)
    simp [List.cons_append, deleteLoop, ha,
      ih (fun x hx => hpre x (by simp [hx]))]

theorem deleteLoop_sublist (issue_id : String) :
    ∀ (l l' : List IssueRecord), deleteLoop issue_id l = some l' →
      l'.Sublist l := by
  intro l
  induction l with
  | nil => intro l' h; cases h
  | cons a rest ih =>
    intro l' h
    by_cases ha : a.id = issue_id
    · simp only [deleteLoop, if_pos ha, Option.some.injEq] at h
      subst h
      exact List.Sublist.cons a (List.Sublist.refl rest)
    · simp only [deleteLoop, if_neg ha] at h
      cases hrec : deleteLoop issue_id rest with
      | none => rw [hrec] at h; cases h
      | some rest2 =>
        rw [hrec] at h
        simp only [Option.map_some', Option.some.injEq] at h
        subst h
        exact List.Sublist.cons₂ a (ih rest2 hrec)

theorem runOps_sublist_aux :
    ∀ (ops : List StoreOp) (s cs : List IssueRecord), s.Sublist cs →
      (runOps s ops).Sublist (cs ++ createdRecords ops) := by
  intro ops
  induction ops with
  | nil =>
    intro s cs h
    simpa [runOps, createdRecords] using h
  | cons op rest ih =>
    intro s cs h
    cases op with
    | createOp fid p =>
      have h2 : (s ++ [mk_new_issue fid p]).Sublist
          (cs ++ [mk_new_issue fid p]) :=
        h.append (List.Sublist.refl _)
      have h3 := ih (s ++ [mk_new_issue fid p]) (cs ++ [mk_new_issue fid p]) h2
      have heq : runOps s (.createOp fid p :: rest)
          = runOps (s ++ [mk_new_issue fid p]) rest := rfl
      rw [heq]
      simpa [createdRecords, List.append_assoc] using h3
    | deleteOp i =>
      have hsub : (runOp s (.deleteOp i)).Sublist s := by
        simp only [runOp, delete_issue, load_data]
        cases hdl : deleteLoop i s with
        | none => exact List.Sublist.refl s
        | some l2 => exact deleteLoop_sublist i s l2 hdl
      have h3 := ih (runOp s (.deleteOp i)) cs (hsub.trans h)
      simpa [runOps, createdRecords] using h3

theorem status_value_closed (s : IssueStatus) :
    s.value = "open" ∨ s.value = "in progress" ∨ s.value = "closed" := by
  cases s <;> simp [IssueStatus.value]

theorem priority_value_closed (q : IssuePriority) :
    q.value = "low" ∨ q.value = "medium" ∨ q.value = "high" := by
  cases q <;> simp [IssuePriority.value]

theorem applyUpdate_wf (u : IssueUpdate) (r : IssueRecord)
    (h : wfRecord r) : wfRecord (applyUpdate u r) := by
  obtain ⟨hid, ht, hd, hp, hs⟩ := applyUpdate_fields u r
  constructor
  · rw [hs]
    cases u.status with
    | none => simpa using h.1
    | some s => simpa using status_value_closed s
  · rw [hp]
    cases u.priority with
    | none => simpa using h.2
    | some q => simpa using priority_value_closed q

/-! ### Claim theorems -/

/-- Claim C1: for every valid create request, the create operation uses
the generated id, forces the new record's status to `"open"` (whatever
`status` key the client supplied), keeps the supplied title and
description, sets priority to the supplied value or `"medium"` when
absent, appends the new record at the end of the loaded collection,
persists that collection, and returns the created record. -/
theorem create_forces_open_defaults_medium_appends
    (freshId : String) (raw : IssueCreateRaw) (p : IssueCreate)
    (store : List IssueRecord) (hv : validate_create raw = some p) :
    post_issue freshId raw store
      = (.ok (mk_new_issue freshId p), store ++ [mk_new_issue freshId p]) ∧
    (mk_new_issue freshId p).id = freshId ∧
    (mk_new_issue freshId p).status = "open" ∧
    (mk_new_issue freshId p).title = raw.title ∧
    (mk_new_issue freshId p).description = raw.description ∧
    (raw.priority = none → (mk_new_issue freshId p).priority = "medium") ∧
    (∀ s q, raw.priority = some s → parsePriority s = some q →
      (mk_new_issue freshId p).priority = q.value) := by
  have hfields : p.title = raw.title ∧ p.description = raw.description ∧
      (raw.priority = none → p.priority = .medium) ∧
      (∀ s q, raw.priority = some s → parsePriority s = some q →
        p.priority = q) := by
    unfold validate_create at hv
    by_cases hlen : titleOk raw.title ∧ descriptionOk raw.description
    · rw [if_pos hlen] at hv
      cases hpr : raw.priority with
      | none =>
        simp only [hpr, Option.some.injEq] at hv
        subst hv
        exact ⟨rfl, rfl, fun _ => rfl, fun s q hs _ => by cases hs⟩
      | some s0 =>
        simp only [hpr] at hv
        cases hq : parsePriority s0 with
        | none =>
          simp only [hq, Option.map_none'] at hv
          exact Option.noConfusion hv
        | some q0 =>
          simp only [hq, Option.map_some', Option.some.injEq] at hv
          subst hv
          refine ⟨rfl, rfl, ?_, ?_⟩
          · intro h; cases h
          · intro s q hs hq2
            cases hs
            rw [hq] at hq2
            cases hq2
            rfl
    · rw [if_neg hlen] at hv; cases hv
  obtain ⟨ht, hd, hpn, hps⟩ := hfields
  refine ⟨?_, rfl, rfl, ?_, ?_, ?_, ?_⟩
  · simp [post_issue, hv, create_issue, load_data, save_data]
  · simp [mk_new_issue, ht]
  · simp [mk_new_issue, hd]
  · intro h
    simp [mk_new_issue, hpn h, IssuePriority.value]
  · intro s q hs hq
    simp [mk_new_issue, hps s q hs hq]

/-- Witness for C1 at a concrete request: the title and description
pass validation, the omitted priority defaults, the supplied `status`
key is ignored, and the record is appended to the empty store. -/
theorem create_forces_open_defaults_medium_appends_witness :
    post_issue "id-1" ⟨"abc", "hello", none, some "closed"⟩ []
      = (.ok (mk_new_issue "id-1" ⟨"abc", "hello", IssuePriority.medium⟩),
         [mk_new_issue "id-1" ⟨"abc", "hello", IssuePriority.medium⟩]) :=
  (create_forces_open_defaults_medium_appends "id-1"
    ⟨"abc", "hello", none, some "closed"⟩
    ⟨"abc", "hello", IssuePriority.medium⟩ [] rfl).1

/-- Claim C2: for an existing issue id (first match of the scan), the
update operation replaces exactly the supplied fields and leaves the
absent fields of that record, its id, and every other record of the
collection unchanged. -/
theorem update_applies_exactly_supplied_fields
    (issue_id : String) (u : IssueUpdate) (pre suf : List IssueRecord)
    (r : IssueRecord) (hpre : ∀ x ∈ pre, x.id ≠ issue_id)
    (hr : r.id = issue_id) :
    update_issue issue_id u (pre ++ r :: suf)
      = (.ok (applyUpdate u r), pre ++ applyUpdate u r :: suf) ∧
    (applyUpdate u r).id = r.id ∧
    (∀ t, u.title = some t → (applyUpdate u r).title = t) ∧
    (u.title = none → (applyUpdate u r).title = r.title) ∧
    (∀ d, u.description = some d → (applyUpdate u r).description = d) ∧
    (u.description = none → (applyUpdate u r).description = r.description) ∧
    (∀ p, u.priority = some p → (applyUpdate u r).priority = p.value) ∧
    (u.priority = none → (applyUpdate u r).priority = r.priority) ∧
    (∀ s, u.status = some s → (applyUpdate u r).status = s.value) ∧
    (u.status = none → (applyUpdate u r).status = r.status) := by
  obtain ⟨hid, ht, hd, hp, hs⟩ := applyUpdate_fields u r
  refine ⟨?_, hid, ?_, ?_, ?_, ?_, ?_, ?_, ?_, ?_⟩
  · simp [update_issue, load_data, save_data,
      updateLoop_first issue_id u pre suf r hpre hr]
  · intro t h; rw [ht, h]; rfl
  · intro h; rw [ht, h]; rfl
  · intro d h; rw [hd, h]; rfl
  · intro h; rw [hd, h]; rfl
  · intro q h; rw [hp, h]; rfl
  · intro h; rw [hp, h]; rfl
  · intro s h; rw [hs, h]; rfl
  · intro h; rw [hs, h]; rfl

/-- Witness for C2: updating only `status` on a concrete one-element
store changes the status string and nothing else. -/
theorem update_applies_exactly_supplied_fields_witness :
    update_issue "a" ⟨none, none, none, some IssueStatus.closed⟩
      [⟨"a", "ttt", "ddddd", "open", "low"⟩]
      = (.ok ⟨"a", "ttt", "ddddd", "closed", "low"⟩,
         [⟨"a", "ttt", "ddddd", "closed", "low"⟩]) :=
  (update_applies_exactly_supplied_fields "a"
    ⟨none, none, none, some IssueStatus.closed⟩ [] []
    ⟨"a", "ttt", "ddddd", "open", "low"⟩ (by simp) rfl).1

/-- Claim C3: get-by-id returns a record with the requested id (under
exact string equality) when one exists; it answers `notFound` exactly
when the whole linear scan finds no match; and on the empty collection
get, update, and delete by id all answer `notFound`. -/
theorem get_by_id_exhaustive_scan (issue_id : String) (u : IssueUpdate)
    (store : List IssueRecord) :
    ((∃ r ∈ store, r.id = issue_id) →
      ∃ r, get_issue issue_id store = (.ok r, store) ∧
        r.id = issue_id ∧ r ∈ store) ∧
    (get_issue issue_id store = (.error .notFound, store) ↔
      ∀ r ∈ store, r.id ≠ issue_id) ∧
    get_issue issue_id [] = (.error .notFound, []) ∧
    update_issue issue_id u [] = (.error .notFound, []) ∧
    delete_issue issue_id [] = (.error .notFound, []) := by
  refine ⟨?_, ⟨?_, ?_⟩, rfl, rfl, rfl⟩
  · intro h
    obtain ⟨r, hfind, hid, hmem⟩ := findIssue_mem issue_id store h
    exact ⟨r, by simp [get_issue, load_data, hfind], hid, hmem⟩
  · intro h
    cases hf : findIssue issue_id store with
    | some r => simp [get_issue, load_data, hf] at h
    | none => exact (findIssue_eq_none_iff issue_id store).mp hf
  · intro h
    simp [get_issue, load_data, (findIssue_eq_none_iff issue_id store).mpr h]

/-- Witness for C3: on a concrete one-element store the matching record
is found and returned without modifying the store. -/
theorem get_by_id_exhaustive_scan_witness :
    ∃ r, get_issue "a" [⟨"a", "ttt", "ddddd", "open", "low"⟩]
        = (.ok r, [⟨"a", "ttt", "ddddd", "open", "low"⟩]) ∧
      r.id = "a" ∧ r ∈ [(⟨"a", "ttt", "ddddd", "open", "low"⟩ : IssueRecord)] :=
  (get_by_id_exhaustive_scan "a" ⟨none, none, none, none⟩
    [⟨"a", "ttt", "ddddd", "open", "low"⟩]).1
    ⟨⟨"a", "ttt", "ddddd", "open", "low"⟩, by simp, rfl⟩

/-- Claim C10: the list handler and the get-by-id handler never write
to the store: whatever the outcome, the resulting store is the incoming
one, since neither calls `save_data`. -/
theorem read_endpoints_never_save (issue_id : String)
    (store : List IssueRecord) :
    (get_issues store).2 = store ∧ (get_issue issue_id store).2 = store := by
  refine ⟨rfl, ?_⟩
  unfold get_issue
  cases findIssue issue_id (load_data store) <;> rfl

/-- Witness for C10: a concrete missed lookup leaves the concrete store
as it was. -/
theorem read_endpoints_never_save_witness :
    (get_issue "z" [⟨"a", "ttt", "ddddd", "open", "low"⟩]).2
      = [⟨"a", "ttt", "ddddd", "open", "low"⟩] :=
  (read_endpoints_never_save "z" [⟨"a", "ttt", "ddddd", "open", "low"⟩]).2

/-- Claim C4: failing operations leave the persisted collection
unchanged: an invalid create or update body answers 422 before the
handler runs and persists nothing, and an update or delete whose id
matches no record answers `notFound` without saving. -/
theorem failed_requests_persist_nothing (freshId issue_id : String)
    (rawC : IssueCreateRaw) (rawU : IssueUpdateRaw)
    (store : List IssueRecord) :
    (validate_create rawC = none →
      post_issue freshId rawC store = (.error .validationError, store)) ∧
    (validate_update rawU = none →
      put_issue issue_id rawU store = (.error .validationError, store)) ∧
    ((∀ r ∈ store, r.id ≠ issue_id) →
      (∀ u : IssueUpdate,
        update_issue issue_id u store = (.error .notFound, store)) ∧
      (put_issue issue_id rawU store).2 = store ∧
      delete_issue issue_id store = (.error .notFound, store)) := by
  refine ⟨?_, ?_, ?_⟩
  · intro h; simp [post_issue, h]
  · intro h; simp [put_issue, h]
  · intro h
    have hupd : ∀ u : IssueUpdate,
        update_issue issue_id u store = (.error .notFound, store) := by
      intro u
      simp [update_issue, load_data, updateLoop_eq_none issue_id u store h]
    refine ⟨hupd, ?_, ?_⟩
    · unfold put_issue
      cases hv : validate_update rawU with
      | none => rfl
      | some u => exact congrArg Prod.snd (hupd u)
    · simp [delete_issue, load_data, deleteLoop_eq_none issue_id store h]

/-- Witness for C4: a length-2 title makes create and update fail with
a validation error leaving the empty store empty, and deleting from the
empty store answers `notFound` without saving. -/
theorem failed_requests_persist_nothing_witness :
    post_issue "id-1" ⟨"ab", "hello", none, none⟩ []
      = (.error .validationError, []) ∧
    put_issue "a" ⟨some "ab", none, none, none⟩ []
      = (.error .validationError, []) ∧
    delete_issue "a" [] = (.error .notFound, []) :=
  ⟨(failed_requests_persist_nothing "id-1" "a" ⟨"ab", "hello", none, none⟩
      ⟨some "ab", none, none, none⟩ []).1 rfl,
   (failed_requests_persist_nothing "id-1" "a" ⟨"ab", "hello", none, none⟩
      ⟨some "ab", none, none, none⟩ []).2.1 rfl,
   ((failed_requests_persist_nothing "id-1" "a" ⟨"ab", "hello", none, none⟩
      ⟨some "ab", none, none, none⟩ []).2.2 (by simp)).2.2⟩

/-- Claim C5: a create body (and an update body supplying the field) is
accepted exactly when the title length lies in [3, 255] and the
description length in [5, 1000]; at the boundaries, a length-2 title
and a length-4 description are rejected while length 3 and length 5 are
accepted. -/
theorem length_validation_boundaries :
    (∀ (t d : String) (st : Option String),
      (validate_create ⟨t, d, none, st⟩).isSome ↔
        (3 ≤ t.length ∧ t.length ≤ 255 ∧ 5 ≤ d.length ∧ d.length ≤ 1000)) ∧
    (∀ t : String, (validate_update ⟨some t, none, none, none⟩).isSome ↔
      3 ≤ t.length ∧ t.length ≤ 255) ∧
    (∀ d : String, (validate_update ⟨none, some d, none, none⟩).isSome ↔
      5 ≤ d.length ∧ d.length ≤ 1000) ∧
    validate_create ⟨"ab", "hello", none, none⟩ = none ∧
    (validate_create ⟨"abc", "hello", none, none⟩).isSome = true ∧
    validate_create ⟨"abc", "hell", none, none⟩ = none ∧
    validate_update ⟨some "ab", none, none, none⟩ = none ∧
    (validate_update ⟨some "abc", none, none, none⟩).isSome = true ∧
    validate_update ⟨none, some "hell", none, none⟩ = none ∧
    (validate_update ⟨none, some "hello", none, none⟩).isSome = true := by
  refine ⟨?_, ?_, ?_, rfl, rfl, rfl, rfl, rfl, rfl, rfl⟩
  · intro t d st
    have key : (validate_create ⟨t, d, none, st⟩).isSome ↔
        titleOk t ∧ descriptionOk d := by
      unfold validate_create
      by_cases h : titleOk t ∧ descriptionOk d
      · simp [h]
      · simp [h]
    rw [key]
    unfold titleOk descriptionOk
    tauto
  · intro t
    constructor
    · intro hs
      by_contra hc
      have h : ¬ titleOk t := hc
      simp [validate_update, validateOptText, if_neg h] at hs
    · intro hb
      have h : titleOk t := hb
      simp [validate_update, validateOptText, parseOptEnum, if_pos h]
  · intro d
    constructor
    · intro hs
      by_contra hc
      have h : ¬ descriptionOk d := hc
      simp [validate_update, validateOptText, parseOptEnum, if_neg h] at hs
    · intro hb
      have h : descriptionOk d := hb
      simp [validate_update, validateOptText, parseOptEnum, if_pos h]

/-- Witness for C5 at the length-2 title boundary: the concrete create
body with title `ab` is rejected. -/
theorem length_validation_boundaries_witness :
    validate_create ⟨"ab", "hello", none, none⟩ = none :=
  length_validation_boundaries.2.2.2.1

/-- Claim C6: after any sequence of creates and deletes starting from
the empty store, the list operation returns the surviving records as a
sublist (hence in order) of the created records in creation order;
create appends the new record at the end, and delete removes exactly
the first matched element, keeping the surrounding order. -/
theorem list_returns_creation_order (ops : List StoreOp)
    (freshId issue_id : String) (p : IssueCreate)
    (store pre suf : List IssueRecord) (r : IssueRecord)
    (hpre : ∀ x ∈ pre, x.id ≠ issue_id) (hr : r.id = issue_id) :
    ((get_issues (runOps [] ops)).1).Sublist (createdRecords ops) ∧
    (create_issue freshId p store).2 = store ++ [mk_new_issue freshId p] ∧
    delete_issue issue_id (pre ++ r :: suf) = (.ok (), pre ++ suf) := by
  refine ⟨?_, rfl, ?_⟩
  · have h := runOps_sublist_aux ops [] [] (List.Sublist.refl [])
    simpa [get_issues, load_data] using h
  · simp [delete_issue, load_data, save_data,
      deleteLoop_first issue_id pre suf r hpre hr]

/-- Witness for C6: deleting the second of two concrete records removes
exactly that record and keeps the first in place. -/
theorem list_returns_creation_order_witness :
    delete_issue "a"
      [⟨"b", "ttt", "ddddd", "open", "low"⟩,
       ⟨"a", "ttt", "ddddd", "open", "low"⟩]
      = (.ok (), [⟨"b", "ttt", "ddddd", "open", "low"⟩]) :=
  (list_returns_creation_order [] "f" "a" ⟨"ttt", "ddddd", IssuePriority.low⟩
    [] [⟨"b", "ttt", "ddddd", "open", "low"⟩] []
    ⟨"a", "ttt", "ddddd", "open", "low"⟩ (by simp) rfl).2.2

/-- Claim C7: creating an issue with title `Fix bug`, description
`Something broke`, priority `high`, then fetching by the id returned
from create, yields a record with identical title, description, and
priority, and status `open`. -/
theorem create_then_get_roundtrip (freshId : String)
    (store : List IssueRecord) (h : ∀ x ∈ store, x.id ≠ freshId) :
    ∃ r store2,
      post_issue freshId
          ⟨"Fix bug", "Something broke", some "high", none⟩ store
        = (.ok r, store2) ∧
      get_issue r.id store2 = (.ok r, store2) ∧
      r.title = "Fix bug" ∧ r.description = "Something broke" ∧
      r.priority = "high" ∧ r.status = "open" := by
  refine ⟨mk_new_issue freshId ⟨"Fix bug", "Something broke", .high⟩,
    store ++ [mk_new_issue freshId ⟨"Fix bug", "Something broke", .high⟩],
    rfl, ?_, rfl, rfl, rfl, rfl⟩
  have hfind := findIssue_first freshId store []
    (mk_new_issue freshId ⟨"Fix bug", "Something broke", .high⟩) h rfl
  show get_issue freshId
      (store ++ [mk_new_issue freshId ⟨"Fix bug", "Something broke", .high⟩])
    = _
  simp [get_issue, load_data, hfind]

/-- Witness for C7 on the empty store with a concrete generated id. -/
theorem create_then_get_roundtrip_witness :
    ∃ r store2,
      post_issue "id-1" ⟨"Fix bug", "Something broke", some "high", none⟩ []
        = (.ok r, store2) ∧
      get_issue r.id store2 = (.ok r, store2) ∧
      r.title = "Fix bug" ∧ r.description = "Something broke" ∧
      r.priority = "high" ∧ r.status = "open" :=
  create_then_get_roundtrip "id-1" [] (by simp)

/-- Claim C8: the wire strings of the status enumeration are exactly
`open`, `in progress` (with a space), `closed`, those of the priority
enumeration exactly `low`, `medium`, `high`, and every operation keeps
every persisted record's status and priority inside these sets. -/
theorem persisted_enum_values_closed (freshId issue_id : String)
    (p : IssueCreate) (u : IssueUpdate) (store : List IssueRecord)
    (hwf : ∀ r ∈ store, wfRecord r) :
    (∀ s : IssueStatus,
      s.value = "open" ∨ s.value = "in progress" ∨ s.value = "closed") ∧
    (∀ q : IssuePriority,
      q.value = "low" ∨ q.value = "medium" ∨ q.value = "high") ∧
    wfRecord (create_issue freshId p store).1 ∧
    (∀ r ∈ (create_issue freshId p store).2, wfRecord r) ∧
    (∀ r ∈ (update_issue issue_id u store).2, wfRecord r) ∧
    (∀ r ∈ (delete_issue issue_id store).2, wfRecord r) := by
  have hmk : wfRecord (mk_new_issue freshId p) :=
    ⟨Or.inl rfl, priority_value_closed p.priority⟩
  refine ⟨status_value_closed, priority_value_closed, hmk, ?_, ?_, ?_⟩
  · intro r hr
    rcases List.mem_append.mp hr with hmem | hmem
    · exact hwf r hmem
    · rw [List.mem_singleton.mp hmem]; exact hmk
  · intro x hx
    cases hloop : updateLoop issue_id u store with
    | none =>
      simp only [update_issue, load_data, hloop] at hx
      exact hwf x hx
    | some pr =>
      obtain ⟨r0, l2⟩ := pr
      simp only [update_issue, load_data, hloop, save_data] at hx
      rcases updateLoop_result issue_id u store l2 r0 hloop x hx with
        hmem | ⟨y, hy, rfl⟩
      · exact hwf x hmem
      · exact applyUpdate_wf u y (hwf y hy)
  · intro x hx
    cases hdl : deleteLoop issue_id store with
    | none =>
      simp only [delete_issue, load_data, hdl] at hx
      exact hwf x hx
    | some l2 =>
      simp only [delete_issue, load_data, hdl, save_data] at hx
      exact hwf x ((deleteLoop_sublist issue_id store l2 hdl).subset hx)

/-- Witness for C8: on the empty store, the record created with a
concrete payload carries enum strings from the closed sets. -/
theorem persisted_enum_values_closed_witness :
    wfRecord (create_issue "id-1" ⟨"ttt", "ddddd", IssuePriority.low⟩ []).1 :=
  (persisted_enum_values_closed "id-1" "a" ⟨"ttt", "ddddd", IssuePriority.low⟩
    ⟨none, none, none, none⟩ [] (by simp)).2.2.1

/-- Claim C9: creating with a generated id that is not already in the
collection appends exactly that id, so id sets stay duplicate-free
across any number of creations with fresh ids; and update never changes
the id of any record. -/
theorem ids_unique_and_never_reassigned (freshId issue_id : String)
    (p : IssueCreate) (u : IssueUpdate) (store : List IssueRecord)
    (hnodup : (ids store).Nodup) (hfresh : freshId ∉ ids store) :
    ids (create_issue freshId p store).2 = ids store ++ [freshId] ∧
    (ids (create_issue freshId p store).2).Nodup ∧
    ids (update_issue issue_id u store).2 = ids store := by
  have hcreate : ids (create_issue freshId p store).2
      = ids store ++ [freshId] := by
    simp [ids, create_issue, load_data, save_data, mk_new_issue]
  refine ⟨hcreate, ?_, ?_⟩
  · rw [hcreate, List.nodup_append]
    refine ⟨hnodup, List.nodup_singleton freshId, ?_⟩
    intro a ha hb
    rw [List.mem_singleton.mp hb] at ha
    exact hfresh ha
  · cases hloop : updateLoop issue_id u store with
    | none => simp [update_issue, load_data, hloop]
    | some pr =>
      obtain ⟨r0, l2⟩ := pr
      have hmap := updateLoop_map_id issue_id u store l2 r0 hloop
      simp only [update_issue, load_data, hloop, save_data]
      exact hmap

/-- Witness for C9: creating with fresh id `b` over a store holding id
`a` yields the id list `[a, b]`. -/
theorem ids_unique_and_never_reassigned_witness :
    ids (create_issue "b" ⟨"ttt", "ddddd", IssuePriority.low⟩
        [⟨"a", "ttt", "ddddd", "open", "low"⟩]).2
      = ids [⟨"a", "ttt", "ddddd", "open", "low"⟩] ++ ["b"] :=
  (ids_unique_and_never_reassigned "b" "a"
    ⟨"ttt", "ddddd", IssuePriority.low⟩ ⟨none, none, none, none⟩
    [⟨"a", "ttt", "ddddd", "open", "low"⟩]
    (by simp [ids]) (by simp [ids])).1

end IssueTracker
